import Mathlib

/-!
Shallow embedding of the PaddleMIX excerpt:
* `ppdiffusers/ppdiffusers/models/activations.py` (activation modules and
  the `get_activation` helper), and
* `ppdiffusers/examples/inference/text_to_image_generation-stable_diffusion_3.py`
  (argument parsing and the benchmark harness).

Tensors are modelled as lists of rationals (a single row vector fed through
the linear layers).  The transcendental scalar primitives supplied by the
deep-learning framework (`F.gelu` in its exact and tanh-approximated forms,
`F.sigmoid`) are external to the repository, so they are kept abstract as a
`Prims` record of scalar functions; every module below is parametric in the
chosen interpretation of these primitives.
-/

set_option autoImplicit false

/-- The framework-provided scalar primitives, kept abstract: `geluExact` is
`F.gelu` with `approximate=False`, `geluTanh` is `F.gelu` with
`approximate=True`, and `sigmoid` is `F.sigmoid`, all applied elementwise. -/
structure Prims where
  geluExact : ℚ → ℚ
  geluTanh : ℚ → ℚ
  sigmoid : ℚ → ℚ

/-- Dot product of two vectors (`zipWith` truncates to the common length). -/
def dotProd (a b : List ℚ) : ℚ :=
  (List.zipWith (· * ·) a b).sum

/-- Elementwise sum of two vectors. -/
def vecAdd (a b : List ℚ) : List ℚ :=
  List.zipWith (· + ·) a b

/-- Elementwise (Hadamard) product of two vectors. -/
def vecMul (a b : List ℚ) : List ℚ :=
  List.zipWith (· * ·) a b

/-- Column `j` of a matrix stored as a list of rows. -/
def matCol (w : List (List ℚ)) (j : ℕ) : List ℚ :=
  w.map (fun row => row.getD j 0)

/-- Models `paddle.matmul(x, w)` for a row vector `x` and a weight matrix `w` of
shape `[dimIn, dimOut]` (rows indexed by the input dimension, as in
`paddle.nn.Linear`): entry `j` of the result is the dot product of `x`
with column `j` of `w`. -/
def matmulVec (x : List ℚ) (w : List (List ℚ)) (dimOut : ℕ) : List ℚ :=
  (List.range dimOut).map (fun j => dotProd x (matCol w j))

/-- Weights of `paddle.nn.Linear(dim_in, dim_out)`: a weight of shape
`[dimIn, dimOut]` and a bias of shape `[dimOut]`. -/
structure Linear where
  dimIn : ℕ
  dimOut : ℕ
  weight : List (List ℚ)
  bias : List ℚ

/-- The forward pass of `nn.Linear`: `x @ weight + bias`. -/
def Linear.forward (l : Linear) (x : List ℚ) : List ℚ :=
  vecAdd (matmulVec x l.weight l.dimOut) l.bias

/-- Evaluation of `F.gelu(gate, approximate=approx)` applied to a tensor, relative to a
primitive interpretation `P`. -/
def fGelu (P : Prims) (approx : Bool) (gate : List ℚ) : List ℚ :=
  if approx then gate.map P.geluTanh else gate.map P.geluExact

/-- The `GELU` module of `activations.py`: `__init__` stores
`self.proj = nn.Linear(dim_in, dim_out)` and `self.approximate`. -/
structure GELU where
  approximate : String
  proj : Linear

/-- Construction `GELU.__init__(dim_in, dim_out, approximate)` with the weights the
framework materialises for `nn.Linear(dim_in, dim_out)`. -/
def GELU.init (dimIn dimOut : ℕ) (approximate : String)
    (w : List (List ℚ)) (b : List ℚ) : GELU :=
  ⟨approximate, ⟨dimIn, dimOut, w, b⟩⟩

/-- The `GELU.gelu` method: `F.gelu(gate, approximate=self.approximate != "none")`. -/
def GELU.geluMethod (P : Prims) (m : GELU) (gate : List ℚ) : List ℚ :=
  fGelu P (m.approximate != "none") gate

/-- Modelled from the spec: the fused bias-activation kernel
(`paddle._C_ops.fused_bias_act`) is an opaque framework-level operator that
"combines a bias addition and an activation computation".  It is not part of
this repository; here it adds the bias (when present) and applies the
activation that `act_method` names.  Only `act_method="gelu"` is exercised
by `GELU.forward`, and `"gelu"` names the same default (exact) GELU as
`F.gelu` with `approximate=False`. -/
def fusedBiasActValue (P : Prims) (x : List ℚ) (bias : Option (List ℚ))
    (actMethod : String) : List ℚ :=
  let xb := match bias with
    | some b => vecAdd x b
    | none => x
  if actMethod = "gelu" then xb.map P.geluExact else xb

/-- Forward pass `GELU.forward`: `matmul(hidden_states, self.proj.weight)` followed by
`compute_activation(hidden_states, self.proj.bias, act_method="gelu")`,
i.e. the fused bias-activation kernel with the fixed method `"gelu"`. -/
def GELU.forward (P : Prims) (m : GELU) (hiddenStates : List ℚ) : List ℚ :=
  fusedBiasActValue P (matmulVec hiddenStates m.proj.weight m.proj.dimOut)
    (some m.proj.bias) "gelu"

/-- The `GEGLU` module: `__init__` stores a single projection
`self.proj = linear_cls(dim_in, dim_out * 2)` (`LoRACompatibleLinear`
without adapters behaves as `nn.Linear`). -/
structure GEGLU where
  proj : Linear

/-- Modelled from the spec: `GEGLU.__init__(dim_in, dim_out)` builds
`self.proj = linear_cls(dim_in, dim_out * 2)`, where `linear_cls` is
`LoRACompatibleLinear` when the PEFT backend is off (repository code not
included in this excerpt).  The spec describes the projection as "a linear
projection", and without LoRA adapters `LoRACompatibleLinear` behaves as
`nn.Linear`, so `proj` is the plain linear layer of width `2*dim_out`. -/
def GEGLU.init (dimIn dimOut : ℕ) (w : List (List ℚ)) (b : List ℚ) : GEGLU :=
  ⟨⟨dimIn, dimOut * 2, w, b⟩⟩

/-- Splitting via `tensor.chunk(2, axis=-1)`: split a vector into two equal halves along
the last axis. -/
def chunk2 (y : List ℚ) : List ℚ × List ℚ :=
  (y.take (y.length / 2), y.drop (y.length / 2))

/-- Method `GEGLU.gelu`: `F.gelu(gate)` with the default `approximate=False`. -/
def GEGLU.geluMethod (P : Prims) (gate : List ℚ) : List ℚ :=
  gate.map P.geluExact

/-- Forward pass `GEGLU.forward`: project, chunk in two along the last axis, and gate the
first half with `F.gelu` of the second half. -/
def GEGLU.forward (P : Prims) (m : GEGLU) (hiddenStates : List ℚ) : List ℚ :=
  let y := m.proj.forward hiddenStates
  let c := chunk2 y
  vecMul c.1 (GEGLU.geluMethod P c.2)

/-- The `ApproximateGELU` module: `__init__` stores
`self.proj = nn.Linear(dim_in, dim_out)`. -/
structure ApproximateGELU where
  proj : Linear

/-- Forward pass `ApproximateGELU.forward`: `x = self.proj(x)` then
`x * F.sigmoid(1.702 * x)` elementwise. -/
def ApproximateGELU.forward (P : Prims) (m : ApproximateGELU)
    (x : List ℚ) : List ℚ :=
  let y := m.proj.forward x
  vecMul y ((y.map (fun v => (1.702 : ℚ) * v)).map P.sigmoid)

/-- Python's `str.lower()`: lowercase each character.  (The strings compared
against it in this repository are all basic-latin.) -/
def pyLower (s : String) : String :=
  ⟨s.data.map Char.toLower⟩

/-- The kinds of activation layers stored in the `ACTIVATION_FUNCTIONS`
dictionary (`nn.Silu()`, `nn.Mish()`, `nn.GELU()`, `nn.ReLU()`). -/
inductive ActLayer where
  | silu
  | mish
  | gelu
  | relu
deriving DecidableEq

/-- The `ACTIVATION_FUNCTIONS` dictionary of `activations.py`, mapping the
five supported lowercase names to their layers; `"swish"` and `"silu"` both
map to a `Silu` layer. -/
def ACTIVATION_FUNCTIONS : List (String × ActLayer) :=
  [("swish", .silu), ("silu", .silu), ("mish", .mish),
   ("gelu", .gelu), ("relu", .relu)]

/-- Helper `get_activation(act_fn)`: lowercase the name, return the dictionary
entry when present, and raise `ValueError` otherwise.  The `ValueError`
branch is modelled by `Except.error` carrying the message. -/
def get_activation (actFn : String) : Except String ActLayer :=
  let actFn := pyLower actFn
  match ACTIVATION_FUNCTIONS.lookup actFn with
  | some layer => .ok layer
  | none => .error ("Unsupported activation function: " ++ actFn)

/-- One invocation of the `fused_bias_act` operator: the tensor inputs that
are handed to the operator together with its attributes.  The dynamic-mode
branch of `GELU.compute_activation` passes all of these positionally to
`paddle._C_ops.fused_bias_act`; the static-graph branch assembles an
`inputs` dictionary and an `attrs` dictionary for `helper.append_op`.
A tensor argument the branch does not hand over is recorded as `none`. -/
structure FusedCall where
  x : List ℚ
  bias : Option (List ℚ)
  dequantScales : Option (List ℚ)
  shift : Option (List ℚ)
  smooth : Option (List ℚ)
  actMethod : String
  computeDtype : String
  quantScale : ℚ
  quantRoundType : ℤ
  quantMaxBound : ℚ
  quantMinBound : ℚ
deriving DecidableEq

/-- The operator invocation built by `GELU.compute_activation`, as a
function of the execution mode (`inDynamicMode`) and of all arguments.
In dynamic mode every argument is forwarded to
`paddle._C_ops.fused_bias_act`.  In the static-graph branch the `inputs`
dictionary holds `x` always and `bias` only when it is not `None`, while
`dequant_scales`, `shift` and `smooth` are never added to `inputs`; the
`attrs` dictionary holds the six attribute arguments. -/
def computeActivationCall (inDynamicMode : Bool) (ffn1Out : List ℚ)
    (bias dequantScales shift smooth : Option (List ℚ))
    (actMethod computeDtype : String)
    (quantScale : ℚ) (quantRoundType : ℤ)
    (quantMaxBound quantMinBound : ℚ) : FusedCall :=
  if inDynamicMode then
    ⟨ffn1Out, bias, dequantScales, shift, smooth, actMethod, computeDtype,
      quantScale, quantRoundType, quantMaxBound, quantMinBound⟩
  else
    ⟨ffn1Out, bias, none, none, none, actMethod, computeDtype,
      quantScale, quantRoundType, quantMaxBound, quantMinBound⟩

/-!
The example script `text_to_image_generation-stable_diffusion_3.py`.
-/

/-- The converter `lambda x: str(x).lower() in ["true", "1", "yes"]` used as
the `type=` of the `--benchmark` flag.  It is a total function on strings:
every string yields `true` or `false` and none is rejected. -/
def benchmarkFlagType (x : String) : Bool :=
  pyLower x ∈ ["true", "1", "yes"]

/-- The identical converter lambda of the `--inference_optimize` flag. -/
def inferenceOptimizeFlagType (x : String) : Bool :=
  pyLower x ∈ ["true", "1", "yes"]

/-- The identical converter lambda of the `--inference_optimize_triton` flag. -/
def inferenceOptimizeTritonFlagType (x : String) : Bool :=
  pyLower x ∈ ["true", "1", "yes"]

/-- The parsed command-line arguments of the example script. -/
structure Args where
  benchmark : Bool
  inferenceOptimize : Bool
  inferenceOptimizeTriton : Bool
  height : ℤ
  width : ℤ
  numInferenceSteps : ℤ

/-- Constant `repeat_times = 10` in the benchmark branch of the script. -/
def repeat_times : ℕ := 10

/-- A `datetime.timedelta` between the two `datetime.datetime.now()` calls:
a nonnegative duration of `micros` microseconds.  Python normalises it into
`days`, `seconds` (in `[0, 86400)`) and `microseconds` (in `[0, 10^6)`). -/
structure Timedelta where
  micros : ℕ
deriving DecidableEq

/-- The `.seconds` field of the normalised `timedelta`. -/
def Timedelta.seconds (t : Timedelta) : ℕ :=
  t.micros / 1000000 % 86400

/-- The `.microseconds` field of the normalised `timedelta`. -/
def Timedelta.microseconds (t : Timedelta) : ℕ :=
  t.micros % 1000000

/-- Computation `time_ms = duringtime.seconds * 1000 +
duringtime.microseconds / 1000.0` (line 100 of the script), as exact
rational arithmetic. -/
def time_ms (t : Timedelta) : ℚ :=
  (t.seconds : ℚ) * 1000 + (t.microseconds : ℚ) / 1000

/-- The duration `endtime - starttime` expressed in milliseconds: the
reference quantity of the spec, not a value the script computes. -/
def elapsedMs (t : Timedelta) : ℚ :=
  (t.micros : ℚ) / 1000

/-- The observable steps of the example script, in order. -/
inductive Event where
  | loadPipeline
  | setEnvOptimize
  | setEnvTriton
  | generate
  | sync
  | printTime (avg : ℚ)
  | printMem
  | save
deriving DecidableEq

/-- The trace of the example script as a function of the parsed arguments
and of the elapsed duration the benchmark measures: load the pipeline (at
module-import time), set the optimization environment variables per the
flags, generate once, then — only when `--benchmark` parsed to true — run 5
warmup generations, synchronize, run `repeat_times` timed generations,
synchronize, print the average time `time_ms / repeat_times` and the memory
high-water mark, and finally save the image. -/
def scriptTrace (a : Args) (t : Timedelta) : List Event :=
  [.loadPipeline]
    ++ (if a.inferenceOptimize then [.setEnvOptimize] else [])
    ++ (if a.inferenceOptimizeTriton then [.setEnvTriton] else [])
    ++ [.generate]
    ++ (if a.benchmark then
          List.replicate 5 .generate
            ++ [.sync] ++ List.replicate repeat_times .generate ++ [.sync]
            ++ [.printTime (time_ms t / (repeat_times : ℚ)), .printMem]
        else [])
    ++ [.save]

/-!
Helper lemmas.
-/

/-- Zipping a list with its own image under a map is a pointwise map. -/
theorem zipWith_self_map (f : ℚ → ℚ → ℚ) (g : ℚ → ℚ) (l : List ℚ) :
    List.zipWith f l (l.map g) = l.map (fun a => f a (g a)) := by
  induction l with
  | nil => rfl
  | cons a l ih => simp [ih]

/-!
Theorems for the claims.
-/

/-- C1, counterexample: it is not the case that for every primitive
interpretation, every `GELU` module and every input, `GELU.forward` agrees
with `self.gelu(self.proj(h))`.  With `approximate = "tanh"` the forward
path still invokes the fused kernel with the fixed `act_method="gelu"`
(the exact GELU), while `self.gelu` applies the tanh approximation; any
interpretation where the two primitives differ separates them, e.g.
`geluExact = id`, `geluTanh = (· + 1)` on the 1×1 module with weight
`[[1]]`, bias `[0]` and input `[1]`. -/
theorem GELU_forward_ne_gelu_proj_for_tanh :
    ¬ ∀ (P : Prims) (m : GELU) (h : List ℚ),
        GELU.forward P m h = GELU.geluMethod P m (m.proj.forward h) := by
  intro hall
  have hx := hall ⟨id, fun x => x + 1, id⟩ (GELU.init 1 1 "tanh" [[1]] [0]) [1]
  norm_num [GELU.forward, GELU.geluMethod, fGelu, fusedBiasActValue,
    GELU.init, Linear.forward, vecAdd, matmulVec, matCol, dotProd,
    List.range_succ] at hx
  rw [if_neg (by decide)] at hx
  exact absurd hx (by simp)

/-- C1, amended: when the module is configured with `approximate = "none"`,
`GELU.forward` (matmul with `proj.weight` followed by the fused
bias-activation kernel with `act_method="gelu"`) returns the same result as
`self.gelu(self.proj(h))`; with `approximate = "tanh"` the forward path
ignores the configured approximation. -/
theorem GELU_forward_matches_gelu_proj_when_none (P : Prims) (m : GELU)
    (h : List ℚ) (ha : m.approximate = "none") :
    GELU.forward P m h = GELU.geluMethod P m (m.proj.forward h) := by
  simp [GELU.forward, GELU.geluMethod, fGelu, fusedBiasActValue,
    Linear.forward, ha]

/-- Witness for the amended C1 at a concrete module and input. -/
theorem GELU_forward_matches_gelu_proj_when_none_witness :
    (GELU.init 1 1 "none" [[1]] [0]).approximate = "none"
    ∧ GELU.forward ⟨id, id, id⟩ (GELU.init 1 1 "none" [[1]] [0]) [1]
      = GELU.geluMethod ⟨id, id, id⟩ (GELU.init 1 1 "none" [[1]] [0])
          ((GELU.init 1 1 "none" [[1]] [0]).proj.forward [1]) :=
  ⟨rfl, GELU_forward_matches_gelu_proj_when_none ⟨id, id, id⟩
    (GELU.init 1 1 "none" [[1]] [0]) [1] rfl⟩

/-- C2: `GEGLU.forward` splits the width-`2*dim_out` projection output into
two equal halves of length `dim_out` along the last axis and returns the
first half multiplied elementwise by `F.gelu` of the second half. -/
theorem GEGLU_forward_splits_and_gates (P : Prims) (dimIn dimOut : ℕ)
    (w : List (List ℚ)) (b : List ℚ) (h : List ℚ)
    (hb : b.length = dimOut * 2) :
    GEGLU.forward P (GEGLU.init dimIn dimOut w b) h
      = List.zipWith (· * ·)
          (((GEGLU.init dimIn dimOut w b).proj.forward h).take dimOut)
          ((((GEGLU.init dimIn dimOut w b).proj.forward h).drop dimOut).map
            P.geluExact)
    ∧ (((GEGLU.init dimIn dimOut w b).proj.forward h).take dimOut).length
        = dimOut
    ∧ (((GEGLU.init dimIn dimOut w b).proj.forward h).drop dimOut).length
        = dimOut := by
  have hy : ((GEGLU.init dimIn dimOut w b).proj.forward h).length
      = dimOut * 2 := by
    simp [GEGLU.init, Linear.forward, vecAdd, matmulVec, hb]
  have hdiv : ((GEGLU.init dimIn dimOut w b).proj.forward h).length / 2
      = dimOut := by
    rw [hy]
    omega
  refine ⟨?_, ?_, ?_⟩
  · simp [GEGLU.forward, chunk2, GEGLU.geluMethod, vecMul, hdiv]
  · simp [hy]
    omega
  · simp [hy]
    omega

/-- Witness for C2 at a concrete module and input. -/
theorem GEGLU_forward_splits_and_gates_witness :
    ([(5 : ℚ), 6] : List ℚ).length = 1 * 2
    ∧ GEGLU.forward ⟨id, id, id⟩ (GEGLU.init 2 1 [[1, 2], [3, 4]] [5, 6]) [1, 1]
      = List.zipWith (· * ·)
          (((GEGLU.init 2 1 [[1, 2], [3, 4]] [5, 6]).proj.forward [1, 1]).take 1)
          ((((GEGLU.init 2 1 [[1, 2], [3, 4]] [5, 6]).proj.forward
              [1, 1]).drop 1).map (Prims.mk id id id).geluExact) :=
  ⟨by decide,
    (GEGLU_forward_splits_and_gates ⟨id, id, id⟩ 2 1 [[1, 2], [3, 4]] [5, 6]
      [1, 1] (by decide)).1⟩

/-- C3: `ApproximateGELU.forward` maps the projection output `y` pointwise
to `y * sigmoid(1.702 * y)`. -/
theorem ApproximateGELU_forward_formula (P : Prims) (m : ApproximateGELU)
    (x : List ℚ) :
    ApproximateGELU.forward P m x
      = (m.proj.forward x).map (fun y => y * P.sigmoid (1.702 * y)) := by
  simp [ApproximateGELU.forward, vecMul, List.map_map, zipWith_self_map]

/-- C8: `GELU.forward` does not depend on the `approximate` attribute: two
`GELU` modules sharing the same projection weights and bias but configured
with different `approximate` strings produce equal outputs on every input,
because the forward path always passes `act_method="gelu"` to the fused
kernel. -/
theorem GELU_forward_independent_of_approximate (P : Prims)
    (a₁ a₂ : String) (proj : Linear) (h : List ℚ) :
    GELU.forward P ⟨a₁, proj⟩ h = GELU.forward P ⟨a₂, proj⟩ h := rfl

/-- C4, counterexample: the dynamic-mode branch and the static-graph branch
of `GELU.compute_activation` do not hand the operator the same inputs for
every argument setting: with `dequant_scales = some []` (and all other
optional tensors `None`) the dynamic branch forwards the dequant scales to
`paddle._C_ops.fused_bias_act` while the static branch's `inputs`
dictionary omits them. -/
theorem computeActivationCall_branches_differ :
    ¬ ∀ (x : List ℚ) (bias dequantScales shift smooth : Option (List ℚ))
        (actMethod computeDtype : String) (quantScale : ℚ)
        (quantRoundType : ℤ) (quantMaxBound quantMinBound : ℚ),
        computeActivationCall true x bias dequantScales shift smooth
            actMethod computeDtype quantScale quantRoundType quantMaxBound
            quantMinBound
          = computeActivationCall false x bias dequantScales shift smooth
              actMethod computeDtype quantScale quantRoundType quantMaxBound
              quantMinBound := by
  intro hall
  have hx := hall [] none (some []) none none "gelu" "default" (-1) 0 0 0
  simp [computeActivationCall] at hx

/-- C4, amended: whenever `dequant_scales`, `shift` and `smooth` are all
`None` (as in the only call site, `GELU.forward`), the dynamic-mode branch
and the static-graph branch of `GELU.compute_activation` hand the
`fused_bias_act` operator the same inputs and the same attributes, so both
branches compute the same result. -/
theorem computeActivationCall_branches_agree (x : List ℚ)
    (bias : Option (List ℚ)) (actMethod computeDtype : String)
    (quantScale : ℚ) (quantRoundType : ℤ)
    (quantMaxBound quantMinBound : ℚ) :
    computeActivationCall true x bias none none none actMethod computeDtype
        quantScale quantRoundType quantMaxBound quantMinBound
      = computeActivationCall false x bias none none none actMethod
          computeDtype quantScale quantRoundType quantMaxBound
          quantMinBound := by
  simp [computeActivationCall]

/-- C7, counterexample: the printed value `time_ms / repeat_times` is not
the elapsed duration in milliseconds divided by 10 for every possible
elapsed duration: at exactly one day (86400000000 microseconds) the
`timedelta` normalises to `days = 1`, `seconds = 0`, `microseconds = 0`,
so `time_ms` is `0` while the elapsed duration is 86400000 ms. -/
theorem time_ms_ignores_days :
    ¬ ∀ t : Timedelta,
        time_ms t / (repeat_times : ℚ) = elapsedMs t / 10 := by
  intro hall
  have hx := hall ⟨86400000000⟩
  norm_num [time_ms, elapsedMs, Timedelta.seconds, Timedelta.microseconds,
    repeat_times] at hx

/-- C7, amended: for every elapsed duration shorter than one day (86400
seconds), `time_ms = duringtime.seconds * 1000 +
duringtime.microseconds / 1000.0` equals the elapsed duration expressed in
milliseconds, and the printed `time_ms / repeat_times` equals the elapsed
milliseconds divided by 10. -/
theorem time_ms_eq_elapsedMs_of_lt_day (t : Timedelta)
    (hlt : t.micros < 86400000000) :
    time_ms t = elapsedMs t
    ∧ time_ms t / (repeat_times : ℚ) = elapsedMs t / 10 := by
  have hsec : t.micros / 1000000 % 86400 = t.micros / 1000000 :=
    Nat.mod_eq_of_lt (Nat.div_lt_of_lt_mul (by omega))
  have hsplit : (1000000 : ℚ) * ((t.micros / 1000000 : ℕ) : ℚ)
      + ((t.micros % 1000000 : ℕ) : ℚ) = (t.micros : ℚ) := by
    exact_mod_cast Nat.div_add_mod t.micros 1000000
  have hmain : time_ms t = elapsedMs t := by
    rw [time_ms, elapsedMs, Timedelta.seconds, Timedelta.microseconds, hsec,
      ← hsplit]
    ring
  exact ⟨hmain, by rw [hmain, repeat_times]; norm_num⟩

/-- Witness for the amended C7 at a concrete duration below one day. -/
theorem time_ms_eq_elapsedMs_of_lt_day_witness :
    (Timedelta.mk 123456789).micros < 86400000000
    ∧ time_ms ⟨123456789⟩ = elapsedMs ⟨123456789⟩ :=
  ⟨by norm_num,
    (time_ms_eq_elapsedMs_of_lt_day ⟨123456789⟩ (by norm_num)).1⟩

/-- The lookup into the five-entry `ACTIVATION_FUNCTIONS` dictionary, as a
chain of string comparisons. -/
theorem lookup_ACTIVATION_FUNCTIONS (u : String) :
    ACTIVATION_FUNCTIONS.lookup u
      = if u = "swish" then some .silu
        else if u = "silu" then some .silu
        else if u = "mish" then some .mish
        else if u = "gelu" then some .gelu
        else if u = "relu" then some .relu
        else none := by
  by_cases h1 : u = "swish"
  · subst h1; rfl
  by_cases h2 : u = "silu"
  · subst h2; rfl
  by_cases h3 : u = "mish"
  · subst h3; rfl
  by_cases h4 : u = "gelu"
  · subst h4; rfl
  by_cases h5 : u = "relu"
  · subst h5; rfl
  have b1 : (u == "swish") = false := beq_eq_false_iff_ne.mpr h1
  have b2 : (u == "silu") = false := beq_eq_false_iff_ne.mpr h2
  have b3 : (u == "mish") = false := beq_eq_false_iff_ne.mpr h3
  have b4 : (u == "gelu") = false := beq_eq_false_iff_ne.mpr h4
  have b5 : (u == "relu") = false := beq_eq_false_iff_ne.mpr h5
  simp [ACTIVATION_FUNCTIONS, List.lookup, b1, b2, b3, b4, b5,
    h1, h2, h3, h4, h5]

/-- C9: `get_activation` succeeds exactly on the strings whose lowercasing
is one of the five dictionary keys (lookup is case-insensitive), `"swish"`
and `"silu"` both return the `Silu` layer, and on every other string it
raises exactly the `ValueError` with the "Unsupported activation function"
message. -/
theorem get_activation_spec (s : String) :
    ((∃ l, get_activation s = .ok l)
      ↔ pyLower s ∈ ["swish", "silu", "mish", "gelu", "relu"])
    ∧ (get_activation s
          = .error ("Unsupported activation function: " ++ pyLower s)
        ↔ pyLower s ∉ ["swish", "silu", "mish", "gelu", "relu"])
    ∧ get_activation "swish" = .ok .silu
    ∧ get_activation "silu" = .ok .silu := by
  have hl := lookup_ACTIVATION_FUNCTIONS (pyLower s)
  refine ⟨?_, ?_, rfl, rfl⟩ <;>
  · simp only [get_activation]
    rw [hl]
    by_cases h1 : pyLower s = "swish" <;>
    by_cases h2 : pyLower s = "silu" <;>
    by_cases h3 : pyLower s = "mish" <;>
    by_cases h4 : pyLower s = "gelu" <;>
    by_cases h5 : pyLower s = "relu" <;>
    simp [h1, h2, h3, h4, h5]

/-- C10: each of the three boolean flag converters
(`lambda x: str(x).lower() in ["true", "1", "yes"]`) returns `true` exactly
when the lowercased string is `"true"`, `"1"` or `"yes"`, and `false` on
every other string; the three converters are the same total function, so no
string is rejected as invalid. -/
theorem flag_converter_spec (s : String) :
    (benchmarkFlagType s = true
      ↔ (pyLower s = "true" ∨ pyLower s = "1" ∨ pyLower s = "yes"))
    ∧ (benchmarkFlagType s = false
      ↔ ¬(pyLower s = "true" ∨ pyLower s = "1" ∨ pyLower s = "yes"))
    ∧ benchmarkFlagType s = inferenceOptimizeFlagType s
    ∧ benchmarkFlagType s = inferenceOptimizeTritonFlagType s := by
  refine ⟨?_, ?_, rfl, rfl⟩ <;>
    simp [benchmarkFlagType, List.mem_cons]

/-- C5: with `--benchmark` parsed to true, the script runs 5 warmup
generations, then exactly `repeat_times = 10` timed generations strictly
between the only two device synchronizations, and prints the average
`time_ms / repeat_times`, i.e. the measured total duration divided by 10. -/
theorem scriptTrace_benchmark_timing (a : Args) (t : Timedelta)
    (hb : a.benchmark = true) :
    (∃ pre post,
      scriptTrace a t
        = pre ++ [Event.sync] ++ List.replicate repeat_times Event.generate
            ++ [Event.sync] ++ post
      ∧ Event.sync ∉ pre ∧ Event.sync ∉ post
      ∧ (∃ pre₀, pre = pre₀ ++ List.replicate 5 Event.generate)
      ∧ Event.printTime (time_ms t / (repeat_times : ℚ)) ∈ post)
    ∧ repeat_times = 10
    ∧ time_ms t / (repeat_times : ℚ) = time_ms t / 10 := by
  refine ⟨⟨([Event.loadPipeline]
        ++ (if a.inferenceOptimize then [Event.setEnvOptimize] else [])
        ++ (if a.inferenceOptimizeTriton then [Event.setEnvTriton] else [])
        ++ [Event.generate]) ++ List.replicate 5 Event.generate,
      [Event.printTime (time_ms t / (repeat_times : ℚ)), Event.printMem,
        Event.save], ?_, ?_, ?_, ⟨_, rfl⟩, ?_⟩, rfl, by norm_num [repeat_times]⟩
  · simp [scriptTrace, hb, List.append_assoc]
  · cases hio : a.inferenceOptimize <;>
      cases hit : a.inferenceOptimizeTriton <;> simp [hio, hit]
  · simp
  · simp

/-- Witness for C5 at concrete arguments and a concrete elapsed duration. -/
theorem scriptTrace_benchmark_timing_witness :
    (∃ pre post,
      scriptTrace ⟨true, false, false, 512, 512, 50⟩ ⟨60000000⟩
        = pre ++ [Event.sync] ++ List.replicate repeat_times Event.generate
            ++ [Event.sync] ++ post
      ∧ Event.sync ∉ pre ∧ Event.sync ∉ post
      ∧ (∃ pre₀, pre = pre₀ ++ List.replicate 5 Event.generate)
      ∧ Event.printTime (time_ms ⟨60000000⟩ / (repeat_times : ℚ)) ∈ post)
    ∧ repeat_times = 10
    ∧ time_ms ⟨60000000⟩ / (repeat_times : ℚ) = time_ms ⟨60000000⟩ / 10 :=
  scriptTrace_benchmark_timing ⟨true, false, false, 512, 512, 50⟩ ⟨60000000⟩
    rfl

/-- C6: for every argument setting the script's trace is: load the
pipeline first, then (after the environment-variable steps) one
generation, then the benchmark block — nonempty exactly when
`--benchmark` parsed to true, holding its 15 further generations — and
finally the save, which occurs exactly once, after every generation. -/
theorem scriptTrace_step_order (a : Args) (t : Timedelta) :
    ∃ envE benchE,
      scriptTrace a t
        = Event.loadPipeline
            :: (envE ++ [Event.generate] ++ benchE ++ [Event.save])
      ∧ Event.generate ∉ envE ∧ Event.save ∉ envE ∧ Event.save ∉ benchE
      ∧ (benchE = [] ↔ a.benchmark = false)
      ∧ benchE.count Event.generate = (if a.benchmark then 15 else 0) := by
  refine ⟨(if a.inferenceOptimize then [Event.setEnvOptimize] else [])
      ++ (if a.inferenceOptimizeTriton then [Event.setEnvTriton] else []),
    (if a.benchmark then
        List.replicate 5 Event.generate ++ [Event.sync]
          ++ List.replicate repeat_times Event.generate ++ [Event.sync]
          ++ [Event.printTime (time_ms t / (repeat_times : ℚ)),
              Event.printMem]
      else []), ?_, ?_, ?_, ?_, ?_, ?_⟩
  · simp [scriptTrace, List.append_assoc]
  · cases hio : a.inferenceOptimize <;>
      cases hit : a.inferenceOptimizeTriton <;> simp [hio, hit]
  · cases hio : a.inferenceOptimize <;>
      cases hit : a.inferenceOptimizeTriton <;> simp [hio, hit]
  · cases hbm : a.benchmark <;> simp [hbm, List.mem_replicate]
  · cases hbm : a.benchmark <;> simp [hbm]
  · cases hbm : a.benchmark <;>
      simp [hbm, List.count_append, List.count_replicate, repeat_times]
